import Mathlib

/-!
Verification of the SQL escaping, condition compilation and statement
building core of `lib/index.js` (a small MySQL pool wrapper).

The JavaScript code is shallowly embedded: dynamic JS values are the
inductive type `JsVal`; a computation that can throw is `Except JsErr _`;
a CRUD entry point that either invokes the caller callback synchronously
with an error or hands a SQL string to `query` is modelled by
`CallOutcome`.  String concatenation with non-string operands in the
source is made explicit through the coercion `jsString`.
-/

namespace LeiMySQL

/-- Dynamic JavaScript values as far as the library inspects them:
`undefined`, `null`, booleans, numbers (the claims only exercise
integers, so numbers are modelled as `Int`), strings, arrays, plain
objects (association lists in property insertion order), `Date`
instances and `Buffer` instances.  `date` and `buffer` carry no payload:
every code path the development reaches either ignores the payload or
fails before using it, and `buffer` stands for the empty buffer. -/
inductive JsVal where
  | undefined
  | null
  | bool (b : Bool)
  | num (n : Int)
  | str (s : String)
  | arr (elems : List JsVal)
  | obj (props : List (String × JsVal))
  | date
  | buffer
deriving Repr

/-- Errors thrown (not passed to callbacks) while building a statement.
The only thrown error the source can produce during SQL construction is
a `ReferenceError` for an identifier that is not in scope. -/
inductive JsErr where
  | referenceError (ident : String)
deriving Repr, DecidableEq

mutual

/-- JavaScript ToString coercion as it happens at `+` concatenation
sites in the source.  Arrays stringify as their comma joined elements
(`Array.prototype.toString`); `Date` stringification is locale and
timezone dependent and is left as a placeholder, no theorem depends on
it; the empty `Buffer` stringifies to the empty string. -/
def jsString : JsVal → String
  | .arr l => String.intercalate "," (jsArrParts l)
  | .undefined => "undefined"
  | .null => "null"
  | .bool b => if b then "true" else "false"
  | .num n => toString n
  | .str s => s
  | .obj _ => "[object Object]"
  | .date => "[Date]"
  | .buffer => ""

/-- Element coercion inside `Array.prototype.toString`: `null` and
`undefined` elements become empty strings, all others stringify. -/
def jsArrParts : List JsVal → List String
  | [] => []
  | .undefined :: xs => "" :: jsArrParts xs
  | .null :: xs => "" :: jsArrParts xs
  | x :: xs => jsString x :: jsArrParts xs

end

/-- JavaScript truthiness (`NaN` is not representable in this model). -/
def jsTruthy : JsVal → Bool
  | .undefined => false
  | .null => false
  | .bool b => b
  | .num n => n != 0
  | .str s => !s.isEmpty
  | _ => true

/-- The test `typeof v === 'object'`; true for `null`, arrays, plain
objects, dates and buffers. -/
def isObjectType : JsVal → Bool
  | .null => true
  | .arr _ => true
  | .obj _ => true
  | .date => true
  | .buffer => true
  | _ => false

/-- Own enumerable properties in `for..in` order: an object yields its
entries, an array its indices, a primitive string its character
indices; primitives, dates and (empty) buffers yield nothing. -/
def jsOwnProps : JsVal → List (String × JsVal)
  | .obj l => l
  | .arr l => l.enum.map (fun p => (toString p.1, p.2))
  | .str s => s.data.enum.map (fun p => (toString p.1, JsVal.str (String.mk [p.2])))
  | _ => []

/-- Property read `v[f]`, restricted to own enumerable properties
(which is all the source ever reads); absent properties yield
`undefined`. -/
def jsGet (v : JsVal) (f : String) : JsVal :=
  ((jsOwnProps v).lookup f).getD .undefined

/-- The per character substitution performed by the regex replace in
`SqlStringEscape`: each of the nine special characters maps to its two
character backslash escape, every other character is kept. -/
def escapeChar (c : Char) : List Char :=
  if c = '\x00' then ['\\', '0']
  else if c = '\n' then ['\\', 'n']
  else if c = '\r' then ['\\', 'r']
  else if c = '\x08' then ['\\', 'b']
  else if c = '\t' then ['\\', 't']
  else if c = '\x1a' then ['\\', 'Z']
  else if c = '\\' then ['\\', '\\']
  else if c = '\'' then ['\\', '\'']
  else if c = '"' then ['\\', '"']
  else [c]

/-- The body of an escaped string literal: `escapeChar` applied to every
character, concatenated. -/
def escapeBody : List Char → List Char
  | [] => []
  | c :: cs => escapeChar c ++ escapeBody cs

/-- The function `SqlStringEscape(val, stringifyObjects, timeZone)` from the source,
as invoked throughout the library: `stringifyObjects` is always falsy
there, so the object branch always takes the `SqlString.objectToValues`
path.  The identifier `SqlString` is referenced for dates, buffers,
arrays and objects but is defined nowhere in the file (the function was
copied out of the mysql driver without its helper object), so those four
branches throw `ReferenceError` at run time; they are modelled by
`Except.error`.  Strings are escaped character by character and wrapped
in single quotes. -/
def SqlStringEscape : JsVal → Except JsErr String
  | .undefined => .ok "NULL"
  | .null => .ok "NULL"
  | .bool b => .ok (if b then "true" else "false")
  | .num n => .ok (toString n)
  | .str s => .ok ("'" ++ String.mk (escapeBody s.data) ++ "'")
  | .date => .error (.referenceError "SqlString")
  | .buffer => .error (.referenceError "SqlString")
  | .arr _ => .error (.referenceError "SqlString")
  | .obj _ => .error (.referenceError "SqlString")

/-- The strict comparison `w[0] === s` of the `switch` in
`parseArrayCondition`, for a string literal `s`. -/
def isTag (v : JsVal) (s : String) : Bool :=
  match v with
  | .str t => t = s
  | _ => false

mutual

/-- The function `parseArrayCondition(w)` from the source.  A non array argument is
escaped directly.  For an array the `switch` on `w[0]` recognises the
tags `$and`, `$or`, `$not`; otherwise it dispatches on the length, and
in every case the result `ret` is spliced into `' (' + ret + ') '`, a
concatenation that coerces the boolean `false` (length 0) and the array
itself (length 1) to strings. -/
def parseArrayCondition : JsVal → Except JsErr String
  | .arr w => pacArr w
  | v => SqlStringEscape v

/-- The body of `parseArrayCondition` on an array `w`.  For `w = []`
every `case` of the `switch` misses (`w[0]` is `undefined`) and the
length 0 default produces `ret = false`, concatenated to `' (false) '`.
For `$not`, `w[1]` of a one element array is `undefined`, which the
recursive call escapes to `NULL`. -/
def pacArr : List JsVal → Except JsErr String
  | [] => .ok " (false) "
  | w0 :: rest =>
    if isTag w0 "$and" then
      (pacList rest).map (fun ps => " (" ++ String.intercalate " AND " ps ++ ") ")
    else if isTag w0 "$or" then
      (pacList rest).map (fun ps => " (" ++ String.intercalate " OR " ps ++ ") ")
    else if isTag w0 "$not" then
      match rest with
      | x :: _ => (parseArrayCondition x).map (fun s => " (NOT " ++ s ++ ") ")
      | [] => (SqlStringEscape .undefined).map (fun s => " (NOT " ++ s ++ ") ")
    else
      match rest with
      | [] => .ok (" (" ++ jsString (.arr [w0]) ++ ") ")
      | [b] => (parseArrayCondition b).map (fun s => " (`" ++ jsString w0 ++ "`=" ++ s ++ ") ")
      | b :: c :: _ =>
        (parseArrayCondition c).map
          (fun s => " (`" ++ jsString w0 ++ "` " ++ jsString b ++ " " ++ s ++ ") ")

/-- The loop `w.slice(1).map(parseArrayCondition)`: the recursive compilation of
the operands of `$and` / `$or`, with thrown errors propagating. -/
def pacList : List JsVal → Except JsErr (List String)
  | [] => .ok []
  | x :: xs => do
    let s ← parseArrayCondition x
    let r ← pacList xs
    .ok (s :: r)

end

/-- The function `parseObjectCondition(w)`: one `` `key`=SqlStringEscape(value) ``
item per own enumerable property, joined with `' AND '`. -/
def parseObjectCondition (props : List (String × JsVal)) : Except JsErr String :=
  (props.mapM (fun kv => (SqlStringEscape kv.2).map (fun s => "`" ++ kv.1 ++ "`=" ++ s))).map
    (String.intercalate " AND ")

/-- Result of `parseCondition`: either SQL text or the boolean `false`
the source returns for inputs of other types (the spec calls it the
"no condition" sentinel). -/
inductive CondResult where
  | sentinel
  | text (s : String)
deriving Repr, DecidableEq

/-- The dispatcher `parseCondition(w)`: strings pass through untouched, arrays go to
`parseArrayCondition`, truthy values of `typeof 'object'` go to
`parseObjectCondition` over their own enumerable properties (none for a
`Date` or an empty `Buffer`), and everything else returns `false`. -/
def parseCondition : JsVal → Except JsErr CondResult
  | .str s => .ok (.text s)
  | .arr w => (parseArrayCondition (.arr w)).map .text
  | .obj l => (parseObjectCondition l).map .text
  | .date => (parseObjectCondition (jsOwnProps .date)).map .text
  | .buffer => (parseObjectCondition (jsOwnProps .buffer)).map .text
  | _ => .ok .sentinel

/-- The string the `WHERE` concatenation site turns a `parseCondition`
result into: SQL text is used as is, the boolean sentinel is coerced by
JavaScript string concatenation to the text `false`. -/
def condText : CondResult → String
  | .sentinel => "false"
  | .text s => s

/-- Outcome of one CRUD entry point, seen from the caller: either an
exception propagates out of the synchronous part (`thrown`), or the
callback is invoked synchronously with an `Error` whose message is
given and nothing is sent (`cbErr`), or a SQL string is handed to
`query` (`sql`). -/
inductive CallOutcome where
  | thrown (e : JsErr)
  | cbErr (msg : String)
  | sql (s : String)
deriving Repr, DecidableEq

namespace MySQLPool

/-- The field name collection pass of `insert`: for every row, every
`for..in` key not seen before is appended, exactly as the `fileds`
object accumulates keys across the batch. -/
def collectFields (rows : List JsVal) : List String :=
  rows.foldl
    (fun acc item =>
      ((jsOwnProps item).map Prod.fst).foldl
        (fun acc2 k => if acc2.contains k then acc2 else acc2 ++ [k]) acc)
    []

/-- The value `insert` uses for row `item` at column `f`: the source
pushes `item[f] || ''`, so an absent key and every falsy present value
alike contribute the empty string. -/
def insertCell (item : JsVal) (f : String) : JsVal :=
  let v := jsGet item f
  if jsTruthy v then v else .str ""

/-- The method `MySQLPool.prototype.insert(table, data, callback)`: a non array
`data` is wrapped in a singleton array; if `data[0]` is not a truthy
`typeof 'object'` value the callback receives `Bad data format.` and
nothing is sent; otherwise the union column list is collected, every
cell is escaped (row major, exceptions propagating) and the INSERT
statement is assembled.  The column list is spliced into the SQL by
array to string coercion, which joins with commas. -/
def insert (table : String) (data : JsVal) : CallOutcome :=
  let rows : List JsVal := match data with | .arr l => l | v => [v]
  let first : JsVal := match rows with | [] => .undefined | x :: _ => x
  if !(jsTruthy first && isObjectType first) then .cbErr "Bad data format."
  else
    let fileds := collectFields rows
    let lines := rows.map (fun item => fileds.map (fun f => insertCell item f))
    match lines.mapM (fun line => line.mapM SqlStringEscape) with
    | .error e => .thrown e
    | .ok esc =>
      .sql ("INSERT INTO `" ++ table ++ "`(" ++
        String.intercalate "," (fileds.map (fun f => "`" ++ f ++ "`")) ++
        ") VALUES\n" ++
        String.intercalate ",\n" (esc.map (fun line => "(" ++ String.intercalate "," line ++ ")")))

/-- The method `MySQLPool.prototype.update(table, where, data, tail, callback)`:
the condition is compiled first (a thrown error propagates), then
`data` is required to be a truthy `typeof 'object'` value — note that
an empty object passes this test — then the `SET` list is built from
the own enumerable properties and the statement is assembled with an
unconditional `WHERE`. -/
def update (table : String) (w : JsVal) (data : JsVal) (tail : String) : CallOutcome :=
  match parseCondition w with
  | .error e => .thrown e
  | .ok cond =>
    if !(jsTruthy data && isObjectType data) then .cbErr "Data must be an object."
    else
      match (jsOwnProps data).mapM
          (fun kv => (SqlStringEscape kv.2).map (fun s => "`" ++ kv.1 ++ "`=" ++ s)) with
      | .error e => .thrown e
      | .ok set =>
        .sql ("UPDATE `" ++ table ++ "` SET " ++ String.intercalate "," set ++
          " WHERE " ++ condText cond ++ " " ++ tail)

/-- The method `MySQLPool.prototype.delete(table, where, tail, callback)`: the
compiled condition is spliced after an unconditional `WHERE`. -/
def deleteFrom (table : String) (w : JsVal) (tail : String) : CallOutcome :=
  match parseCondition w with
  | .error e => .thrown e
  | .ok cond =>
    .sql ("DELETE FROM `" ++ table ++ "` WHERE " ++ condText cond ++ " " ++ tail)

/-- The `fields` argument of `select`: an array is mapped to back
quoted names joined with `', '`, anything else is used as is (string
coerced at the concatenation site). -/
def fieldsText : JsVal → String
  | .arr l => String.intercalate ", " (l.map (fun item => "`" ++ jsString item ++ "`"))
  | v => jsString v

/-- The method `MySQLPool.prototype.select(table, fields, where, tail, callback)`:
the statement is assembled with an unconditional `WHERE` around the
compiled condition. -/
def select (table : String) (fields : JsVal) (w : JsVal) (tail : String) : CallOutcome :=
  match parseCondition w with
  | .error e => .thrown e
  | .ok cond =>
    .sql ("SELECT " ++ fieldsText fields ++ " FROM `" ++ table ++ "` WHERE " ++
      condText cond ++ " " ++ tail)

end MySQLPool

/-- ASCII lowercasing of one character, the effect of
`String.prototype.toLowerCase` on the ASCII range (the only range the
`selectOne` token test involves). -/
def charLower (c : Char) : Char :=
  if 'A' ≤ c ∧ c ≤ 'Z' then Char.ofNat (c.toNat + 32) else c

/-- The lowering `tail.toLowerCase()` over the characters of a string. -/
def strLower (s : String) : String :=
  String.mk (s.data.map charLower)

/-- Substring containment on character lists, the semantics of
`hay.indexOf(needle) !== -1`. -/
def listContainsSub (needle : List Char) : List Char → Bool
  | [] => needle.isEmpty
  | c :: rest => needle.isPrefixOf (c :: rest) || listContainsSub needle rest

namespace MySQLPool

/-- The tail rewrite of `selectOne`: `' LIMIT 1'` is appended unless
`tail.toLowerCase()` already contains the token `'limit '`. -/
def selectOneTail (tail : String) : String :=
  if listContainsSub "limit ".data (strLower tail).data then tail else tail ++ " LIMIT 1"

/-- The method `MySQLPool.prototype.selectOne`: a `select` with the rewritten
tail. -/
def selectOne (table : String) (fields : JsVal) (w : JsVal) (tail : String) : CallOutcome :=
  select table fields w (selectOneTail tail)

/-- The result transformation of `selectOne` on a successful query:
the callback receives `list && list[0]`, i.e. the head of the row list
or `undefined` (`none`) when the list is empty. -/
def selectOneResult {ρ : Type} (rows : List ρ) : Option ρ :=
  rows.head?

/-- One observable event of a `query` call: the connection being
released back to the pool, or the caller callback firing with a result
or error. -/
inductive QueryEvent (ε ρ : Type) where
  | release
  | callback (r : Except ε ρ)
deriving Repr

/-- The event trace of `MySQLPool.prototype.query`.  `acq` is the
outcome of `pool.getConnection`; `outcome` is what the driver passes to
the (wrapped) callback — per the collaborator contract the driver
invokes that callback exactly once.  On acquisition failure the source
returns `callback(err)` without touching any connection; on success the
wrapped callback first calls `conn.release()` and then forwards its
arguments to the caller callback, so the release event strictly
precedes the callback event (in particular it has happened even if the
caller callback itself then throws). -/
def queryEvents {ε ρ : Type} (acq : Except ε Unit) (outcome : Except ε ρ) :
    List (QueryEvent ε ρ) :=
  match acq with
  | .error e => [.callback (.error e)]
  | .ok _ => [.release, .callback outcome]

/-- Whether an event is a callback invocation. -/
def QueryEvent.isCallback {ε ρ : Type} : QueryEvent ε ρ → Bool
  | .callback _ => true
  | _ => false

/-- Whether an event is a connection release. -/
def QueryEvent.isRelease {ε ρ : Type} : QueryEvent ε ρ → Bool
  | .release => true
  | _ => false

end MySQLPool

/-- MySQL lexer pass over the body of a single quoted literal: a
backslash consumes the following character, an unconsumed single quote
terminates the literal early (result `false`); `true` means the scan
reaches the end of the body with the literal still open. -/
def noEarlyTerm : List Char → Bool
  | [] => true
  | c :: rest =>
    if c = '\\' then
      match rest with
      | [] => true
      | _ :: rest2 => noEarlyTerm rest2
    else if c = '\'' then false
    else noEarlyTerm rest

/-- Specification side dedup that keeps the first occurrence of every
element, parameterised by an initial seen list. -/
def dedupFirstAux (seen : List String) : List String → List String
  | [] => []
  | k :: ks =>
    if seen.contains k then dedupFirstAux seen ks
    else k :: dedupFirstAux (seen ++ [k]) ks

/-- First seen order dedup of a list of field names. -/
def dedupFirst (l : List String) : List String :=
  dedupFirstAux [] l

/-- The `for..in` key list of one row. -/
def rowKeys (item : JsVal) : List String :=
  (jsOwnProps item).map Prod.fst

/-! ## Helper lemmas -/

/-- Scanning one escape unit never terminates the literal: the scan of
`escapeChar c ++ rest` continues exactly as the scan of `rest`. -/
theorem noEarlyTerm_escapeChar_append (c : Char) (rest : List Char) :
    noEarlyTerm (escapeChar c ++ rest) = noEarlyTerm rest := by
  unfold escapeChar
  split_ifs with h1 h2 h3 h4 h5 h6 h7 h8 h9
  case _ => simp [noEarlyTerm]
  case _ => simp [noEarlyTerm]
  case _ => simp [noEarlyTerm]
  case _ => simp [noEarlyTerm]
  case _ => simp [noEarlyTerm]
  case _ => simp [noEarlyTerm]
  case _ => simp [noEarlyTerm]
  case _ => simp [noEarlyTerm]
  case _ => simp [noEarlyTerm]
  case _ =>
    cases rest with
    | nil => simp [noEarlyTerm, h7, h8]
    | cons d ds => simp [noEarlyTerm, h7, h8]

/-- The escaped body of any string survives the whole scan: no
unescaped quote occurs in it. -/
theorem noEarlyTerm_escapeBody (l : List Char) : noEarlyTerm (escapeBody l) = true := by
  induction l with
  | nil => rfl
  | cons c cs ih => rw [escapeBody, noEarlyTerm_escapeChar_append, ih]

/-- The operand compilation loop of `$and` / `$or` is `mapM` of the
condition compiler. -/
theorem pacList_eq_mapM (l : List JsVal) :
    pacList l = l.mapM parseArrayCondition := by
  induction l with
  | nil => rfl
  | cons x xs ih => rw [pacList, ih, List.mapM_cons]; rfl

/-- The key accumulation fold of `insert` appends, after any
accumulator, exactly the first seen dedup of the key list relative to
that accumulator. -/
theorem foldl_insertKey (ks : List String) :
    ∀ acc : List String,
      ks.foldl (fun a k => if a.contains k then a else a ++ [k]) acc =
        acc ++ dedupFirstAux acc ks := by
  induction ks with
  | nil => intro acc; simp [dedupFirstAux]
  | cons k ks ih =>
    intro acc
    rw [List.foldl_cons, dedupFirstAux]
    by_cases h : acc.contains k = true
    · rw [if_pos h, if_pos h, ih]
    · rw [if_neg h, if_neg h, ih (acc ++ [k]), List.append_assoc, List.singleton_append]

/-- Splitting a key list splits its first seen dedup, the second part
deduplicated relative to everything already emitted. -/
theorem dedupFirstAux_append (l1 l2 : List String) :
    ∀ seen : List String,
      dedupFirstAux seen (l1 ++ l2) =
        dedupFirstAux seen l1 ++ dedupFirstAux (seen ++ dedupFirstAux seen l1) l2 := by
  induction l1 with
  | nil => intro seen; simp [dedupFirstAux]
  | cons k l1 ih =>
    intro seen
    rw [List.cons_append, dedupFirstAux, dedupFirstAux]
    by_cases h : seen.contains k = true
    · rw [if_pos h, if_pos h, ih]
    · rw [if_neg h, if_neg h, ih (seen ++ [k]), List.cons_append, List.append_assoc,
        List.singleton_append]

/-- Membership in the first seen dedup: exactly the elements of the
list that are not in the initial seen list. -/
theorem mem_dedupFirstAux (x : String) (l : List String) :
    ∀ seen : List String, x ∈ dedupFirstAux seen l ↔ x ∈ l ∧ x ∉ seen := by
  induction l with
  | nil => intro seen; simp [dedupFirstAux]
  | cons k ks ih =>
    intro seen
    rw [dedupFirstAux]
    by_cases h : seen.contains k = true
    · have hk : k ∈ seen := List.elem_iff.mp h
      rw [if_pos h, ih]
      constructor
      · rintro ⟨hx, hs⟩
        exact ⟨List.mem_cons_of_mem _ hx, hs⟩
      · rintro ⟨hx, hs⟩
        rcases List.mem_cons.mp hx with rfl | hx2
        · exact absurd hk hs
        · exact ⟨hx2, hs⟩
    · have hk : k ∉ seen := fun hm => h (List.elem_iff.mpr hm)
      rw [if_neg h]
      constructor
      · intro hx
        rcases List.mem_cons.mp hx with rfl | hx2
        · exact ⟨List.mem_cons_self _ _, hk⟩
        · obtain ⟨h1, h2⟩ := (ih (seen ++ [k])).mp hx2
          exact ⟨List.mem_cons_of_mem _ h1, fun hm => h2 (List.mem_append_left _ hm)⟩
      · rintro ⟨hx, hs⟩
        rcases List.mem_cons.mp hx with rfl | hx2
        · exact List.mem_cons_self _ _
        · by_cases hxk : x = k
          · rw [hxk]
            exact List.mem_cons_self _ _
          · refine List.mem_cons_of_mem _ ((ih (seen ++ [k])).mpr ⟨hx2, ?_⟩)
            intro hm
            rcases List.mem_append.mp hm with hm1 | hm2
            · exact hs hm1
            · exact hxk (List.mem_singleton.mp hm2)

/-- The two nested accumulation loops of `insert` compute exactly the
first seen order dedup of the concatenated per row key lists. -/
theorem collectFields_eq_dedupFirst (rows : List JsVal) :
    MySQLPool.collectFields rows = dedupFirst ((rows.map rowKeys).flatten) := by
  have main : ∀ (rs : List JsVal) (acc : List String),
      rs.foldl
        (fun acc item =>
          ((jsOwnProps item).map Prod.fst).foldl
            (fun acc2 k => if acc2.contains k then acc2 else acc2 ++ [k]) acc)
        acc =
      acc ++ dedupFirstAux acc ((rs.map (fun item => (jsOwnProps item).map Prod.fst)).flatten) := by
    intro rs
    induction rs with
    | nil => intro acc; simp [dedupFirstAux]
    | cons r rs ih =>
      intro acc
      rw [List.foldl_cons, foldl_insertKey, ih, List.map_cons, List.flatten_cons,
        dedupFirstAux_append, List.append_assoc]
  have h0 := main rows []
  rw [List.nil_append] at h0
  exact h0

/-! ## Claim theorems -/

/-- Claim C1: for every `query` call, if pool acquisition fails the
caller callback is invoked exactly once with the acquisition error and
no release happens; if acquisition succeeds the connection is released
exactly once, strictly before the single callback invocation, whatever
the query outcome is — so no connection is leaked and the callback
fires exactly once per request. -/
theorem query_release_discipline {ε ρ : Type} (acq : Except ε Unit) (outcome : Except ε ρ) :
    ((MySQLPool.queryEvents acq outcome).filter MySQLPool.QueryEvent.isCallback).length = 1 ∧
    ((MySQLPool.queryEvents acq outcome).filter MySQLPool.QueryEvent.isRelease).length ≤ 1 ∧
    (∀ e, acq = .error e →
      MySQLPool.queryEvents acq outcome = [.callback (.error e)]) ∧
    (∀ u, acq = .ok u →
      MySQLPool.queryEvents acq outcome = [.release, .callback outcome]) := by
  cases acq with
  | error e =>
    refine ⟨rfl, by simp [MySQLPool.queryEvents, MySQLPool.QueryEvent.isRelease], ?_, ?_⟩
    · intro e2 he
      injection he with h
      rw [h]
      rfl
    · intro u hu
      exact Except.noConfusion hu
  | ok u =>
    refine ⟨rfl, by simp [MySQLPool.queryEvents, MySQLPool.QueryEvent.isRelease], ?_, ?_⟩
    · intro e2 he
      exact Except.noConfusion he
    · intro u2 hu
      rfl

/-- Witness for C1: both branches at concrete inputs. -/
theorem query_release_discipline_witness :
    MySQLPool.queryEvents (Except.error "no connection" : Except String Unit)
        (Except.ok 7 : Except String Nat) = [.callback (.error "no connection")] ∧
    MySQLPool.queryEvents (Except.ok () : Except String Unit)
        (Except.ok 7 : Except String Nat) = [.release, .callback (.ok 7)] :=
  ⟨(query_release_discipline (Except.error "no connection") (Except.ok 7)).2.2.1
      "no connection" rfl,
   (query_release_discipline (Except.ok ()) (Except.ok 7)).2.2.2 () rfl⟩

/-- Claim C2 counterexample: compiling the empty array does not yield
the sentinel but the SQL text `' (false) '`, and `select` still emits
the `WHERE` keyword for it. -/
theorem compile_empty_where_cex :
    parseCondition (.arr []) = .ok (.text " (false) ") ∧
    MySQLPool.select "t" (.str "*") (.arr []) "" =
      .sql "SELECT * FROM `t` WHERE  (false)  " :=
  ⟨rfl, rfl⟩

/-- Claim C2 amended: an absent (non string, non array, non object)
condition compiles to the sentinel `false` while the empty array
compiles to the text `' (false) '`; the statement builders always emit
the `WHERE` keyword, string coercing the sentinel to the literal text
`false`, so for empty or absent conditions the emitted `WHERE` clause
carries the non empty boolean content `false` rather than being
omitted. -/
theorem where_always_emitted (t tl : String) (f : JsVal) :
    parseCondition (.arr []) = .ok (.text " (false) ") ∧
    parseCondition .undefined = .ok .sentinel ∧
    condText .sentinel = "false" ∧
    MySQLPool.select t f (.arr []) tl =
      .sql ("SELECT " ++ MySQLPool.fieldsText f ++ " FROM `" ++ t ++ "` WHERE " ++
        " (false) " ++ " " ++ tl) ∧
    MySQLPool.select t f .undefined tl =
      .sql ("SELECT " ++ MySQLPool.fieldsText f ++ " FROM `" ++ t ++ "` WHERE " ++
        "false" ++ " " ++ tl) ∧
    MySQLPool.deleteFrom t (.arr []) tl =
      .sql ("DELETE FROM `" ++ t ++ "` WHERE " ++ " (false) " ++ " " ++ tl) ∧
    MySQLPool.deleteFrom t .undefined tl =
      .sql ("DELETE FROM `" ++ t ++ "` WHERE " ++ "false" ++ " " ++ tl) :=
  ⟨rfl, rfl, rfl, rfl, rfl, rfl, rfl⟩

/-- Claim C3: escaping a string wraps the character escaped body in
single quotes; each of the nine special characters is replaced by its
documented two character backslash escape, every other character is
kept; and the body contains no unescaped single quote, so the literal
never terminates early. -/
theorem sql_escape_string_quoted_safe (s : String) :
    SqlStringEscape (.str s) = .ok ("'" ++ String.mk (escapeBody s.data) ++ "'") ∧
    noEarlyTerm (escapeBody s.data) = true ∧
    escapeChar '\x00' = ['\\', '0'] ∧
    escapeChar '\n' = ['\\', 'n'] ∧
    escapeChar '\r' = ['\\', 'r'] ∧
    escapeChar '\x08' = ['\\', 'b'] ∧
    escapeChar '\t' = ['\\', 't'] ∧
    escapeChar '\x1a' = ['\\', 'Z'] ∧
    escapeChar '\\' = ['\\', '\\'] ∧
    escapeChar '\'' = ['\\', '\''] ∧
    escapeChar '"' = ['\\', '"'] ∧
    (∀ c : Char, c ∉ ['\x00', '\n', '\r', '\x08', '\t', '\x1a', '\\', '\'', '"'] →
      escapeChar c = [c]) := by
  refine ⟨rfl, noEarlyTerm_escapeBody s.data, rfl, rfl, rfl, rfl, rfl, rfl, rfl, rfl, rfl, ?_⟩
  intro c hc
  unfold escapeChar
  split_ifs with h1 h2 h3 h4 h5 h6 h7 h8 h9
  · exact absurd (by rw [h1]; decide) hc
  · exact absurd (by rw [h2]; decide) hc
  · exact absurd (by rw [h3]; decide) hc
  · exact absurd (by rw [h4]; decide) hc
  · exact absurd (by rw [h5]; decide) hc
  · exact absurd (by rw [h6]; decide) hc
  · exact absurd (by rw [h7]; decide) hc
  · exact absurd (by rw [h8]; decide) hc
  · exact absurd (by rw [h9]; decide) hc
  · rfl

/-- Witness for C3 at a concrete string containing a quote. -/
theorem sql_escape_string_quoted_safe_witness :
    SqlStringEscape (.str "it's") = .ok "'it\\'s'" ∧
    noEarlyTerm (escapeBody "it's".data) = true ∧
    escapeChar 'x' = ['x'] := by
  obtain ⟨h1, h2, _, _, _, _, _, _, _, _, _, hplain⟩ := sql_escape_string_quoted_safe "it's"
  exact ⟨h1, h2, hplain 'x' (by decide)⟩

/-- Claim C4 (code bug evidence): escaping a `Date`, a `Buffer`, an
array or a plain object does not produce the documented rendering; all
four branches dereference the undefined identifier `SqlString` and
throw a `ReferenceError`. -/
theorem escape_complex_values_reference_error :
    SqlStringEscape .date = .error (.referenceError "SqlString") ∧
    SqlStringEscape .buffer = .error (.referenceError "SqlString") ∧
    SqlStringEscape (.arr [.num 1, .num 2]) = .error (.referenceError "SqlString") ∧
    SqlStringEscape (.obj [("a", .num 1)]) = .error (.referenceError "SqlString") :=
  ⟨rfl, rfl, rfl, rfl⟩

/-- Claim C5 counterexample: with operator `IN` and an array value, the
value is recursively compiled as a prefix expression condition — here
producing `` `1` 2 3 `` from `[1,2,3]` — and not as the escaper's comma
joined list; the escaper itself cannot even render an array (it throws
a `ReferenceError`). -/
theorem compile_in_sequence_cex :
    parseArrayCondition (.arr [.str "a", .str "IN", .arr [.num 1, .num 2, .num 3]]) =
      .ok " (`a` IN  (`1` 2 3) ) " ∧
    SqlStringEscape (.arr [.num 1, .num 2, .num 3]) = .error (.referenceError "SqlString") :=
  ⟨rfl, rfl⟩

/-- Claim C5 amended: for a length 2 prefix expression `[field, value]`
the compiler yields `` `field`= `` followed by the recursively compiled
value, in parentheses, and for length at least 3 it yields `` `field`
operator `` followed by the recursively compiled value, in parentheses;
a non array value compiles to its escape, but an array value is
recursively compiled as a nested prefix expression condition, not as
the escaper's parenthesized comma joined list. -/
theorem compile_length_dispatch (f : String) (v b : JsVal) (more : List JsVal)
    (h1 : f ≠ "$and") (h2 : f ≠ "$or") (h3 : f ≠ "$not") :
    parseArrayCondition (.arr [.str f, v]) =
      (parseArrayCondition v).map (fun s => " (`" ++ f ++ "`=" ++ s ++ ") ") ∧
    parseArrayCondition (.arr (.str f :: b :: v :: more)) =
      (parseArrayCondition v).map
        (fun s => " (`" ++ f ++ "` " ++ jsString b ++ " " ++ s ++ ") ") ∧
    (∀ w : JsVal, (∀ l, w ≠ .arr l) → parseArrayCondition w = SqlStringEscape w) := by
  have e1 : isTag (.str f) "$and" = false := by simp [isTag, h1]
  have e2 : isTag (.str f) "$or" = false := by simp [isTag, h2]
  have e3 : isTag (.str f) "$not" = false := by simp [isTag, h3]
  refine ⟨?_, ?_, ?_⟩
  · have hch : parseArrayCondition (.arr [.str f, v]) =
        (if isTag (.str f) "$and" = true then
          (pacList [v]).map (fun ps => " (" ++ String.intercalate " AND " ps ++ ") ")
        else if isTag (.str f) "$or" = true then
          (pacList [v]).map (fun ps => " (" ++ String.intercalate " OR " ps ++ ") ")
        else if isTag (.str f) "$not" = true then
          (parseArrayCondition v).map (fun s => " (NOT " ++ s ++ ") ")
        else
          (parseArrayCondition v).map (fun s => " (`" ++ f ++ "`=" ++ s ++ ") ")) := rfl
    rw [hch, e1, e2, e3]
    simp
  · have hch : parseArrayCondition (.arr (.str f :: b :: v :: more)) =
        (if isTag (.str f) "$and" = true then
          (pacList (b :: v :: more)).map
            (fun ps => " (" ++ String.intercalate " AND " ps ++ ") ")
        else if isTag (.str f) "$or" = true then
          (pacList (b :: v :: more)).map
            (fun ps => " (" ++ String.intercalate " OR " ps ++ ") ")
        else if isTag (.str f) "$not" = true then
          (parseArrayCondition b).map (fun s => " (NOT " ++ s ++ ") ")
        else
          (parseArrayCondition v).map
            (fun s => " (`" ++ f ++ "` " ++ jsString b ++ " " ++ s ++ ") ")) := rfl
    rw [hch, e1, e2, e3]
    simp
  · intro w hw
    cases w with
    | arr l => exact absurd rfl (hw l)
    | _ => rfl

/-- Witness for C5 amended at concrete inputs. -/
theorem compile_length_dispatch_witness :
    parseArrayCondition (.arr [.str "a", .num 1]) = .ok " (`a`=1) " ∧
    parseArrayCondition (.arr [.str "b", .str ">", .num 2]) = .ok " (`b` > 2) " :=
  ⟨(compile_length_dispatch "a" (.num 1) (.num 0) [] (by decide) (by decide) (by decide)).1,
   (compile_length_dispatch "b" (.num 2) (.str ">") [] (by decide) (by decide)
      (by decide)).2.1⟩

/-- Claim C6: `$and` / `$or` compile every remaining element
recursively and join the results with the uppercase operator name in a
single parenthesized group; `$not` compiles the second element,
prefixes `NOT` and parenthesizes; and the worked example from the spec
evaluates to both branches parenthesized and joined by `AND`. -/
theorem compile_logical_operators (rest : List JsVal) (x : JsVal) (more : List JsVal) :
    parseArrayCondition (.arr (.str "$and" :: rest)) =
      (rest.mapM parseArrayCondition).map
        (fun ps => " (" ++ String.intercalate " AND " ps ++ ") ") ∧
    parseArrayCondition (.arr (.str "$or" :: rest)) =
      (rest.mapM parseArrayCondition).map
        (fun ps => " (" ++ String.intercalate " OR " ps ++ ") ") ∧
    parseArrayCondition (.arr (.str "$not" :: x :: more)) =
      (parseArrayCondition x).map (fun s => " (NOT " ++ s ++ ") ") ∧
    parseArrayCondition
        (.arr [.str "$and", .arr [.str "a", .num 1], .arr [.str "b", .str ">", .num 2]]) =
      .ok " ( (`a`=1)  AND  (`b` > 2) ) " := by
  refine ⟨?_, ?_, ?_, rfl⟩
  · have h : parseArrayCondition (.arr (.str "$and" :: rest)) =
        (pacList rest).map (fun ps => " (" ++ String.intercalate " AND " ps ++ ") ") := rfl
    rw [h, pacList_eq_mapM]
  · have h : parseArrayCondition (.arr (.str "$or" :: rest)) =
        (pacList rest).map (fun ps => " (" ++ String.intercalate " OR " ps ++ ") ") := rfl
    rw [h, pacList_eq_mapM]
  · rfl

/-- Claim C7: the column list of an insert batch is the first seen
order dedup of the union of the row key lists (membership is exactly
membership in some row); a cell is the row value at that column when
truthy and the empty string when the key is absent or its value is
falsy; and the worked example from the spec. -/
theorem insert_union_columns_placeholders (rows : List JsVal) (r : JsVal) (f : String) :
    MySQLPool.collectFields rows = dedupFirst ((rows.map rowKeys).flatten) ∧
    (∀ k, k ∈ MySQLPool.collectFields rows ↔ ∃ item ∈ rows, k ∈ rowKeys item) ∧
    (jsGet r f = .undefined → MySQLPool.insertCell r f = .str "") ∧
    (jsTruthy (jsGet r f) = false → MySQLPool.insertCell r f = .str "") ∧
    (jsTruthy (jsGet r f) = true → MySQLPool.insertCell r f = jsGet r f) ∧
    MySQLPool.insert "t" (.arr [.obj [("a", .num 1)], .obj [("b", .num 2)]]) =
      .sql "INSERT INTO `t`(`a`,`b`) VALUES\n(1,''),\n('',2)" := by
  refine ⟨collectFields_eq_dedupFirst rows, ?_, ?_, ?_, ?_, rfl⟩
  · intro k
    rw [collectFields_eq_dedupFirst, dedupFirst, mem_dedupFirstAux]
    simp [List.mem_flatten, List.mem_map]
  · intro h
    simp [MySQLPool.insertCell, h, jsTruthy]
  · intro h
    simp [MySQLPool.insertCell, h]
  · intro h
    simp [MySQLPool.insertCell, h]

/-- Witness for C7: an absent key, a falsy present value, and a truthy
value, at concrete rows. -/
theorem insert_union_columns_placeholders_witness :
    MySQLPool.insertCell (.obj []) "b" = .str "" ∧
    MySQLPool.insertCell (.obj [("a", .num 0)]) "a" = .str "" ∧
    MySQLPool.insertCell (.obj [("a", .num 7)]) "a" = .num 7 :=
  ⟨(insert_union_columns_placeholders [] (.obj []) "b").2.2.1 rfl,
   (insert_union_columns_placeholders [] (.obj [("a", .num 0)]) "a").2.2.2.1 rfl,
   (insert_union_columns_placeholders [] (.obj [("a", .num 7)]) "a").2.2.2.2.1 rfl⟩

/-- Claim C8 counterexample: `update` with an empty mapping as `data` —
not a non empty mapping — does not report a data format error; it
builds and sends a statement with an empty `SET` list. -/
theorem update_empty_mapping_cex :
    MySQLPool.update "t" (.str "1") (.obj []) "" = .sql "UPDATE `t` SET  WHERE 1 " := rfl

/-- Claim C8 amended: `insert` reports `Bad data format.`
synchronously, sending nothing, when the batch is empty or its first
element is not a truthy object; `update` reports
`Data must be an object.` only when `data` is not a truthy object — an
empty mapping passes the check and an `UPDATE` with an empty `SET`
list is sent. -/
theorem data_format_error_paths (t tl : String) (first data w : JsVal) (rest : List JsVal)
    (cond : CondResult) :
    MySQLPool.insert t (.arr []) = .cbErr "Bad data format." ∧
    ((jsTruthy first && isObjectType first) = false →
      MySQLPool.insert t (.arr (first :: rest)) = .cbErr "Bad data format.") ∧
    (parseCondition w = .ok cond → (jsTruthy data && isObjectType data) = false →
      MySQLPool.update t w data tl = .cbErr "Data must be an object.") ∧
    MySQLPool.update "t" (.str "1") (.obj []) "" = .sql "UPDATE `t` SET  WHERE 1 " := by
  refine ⟨rfl, ?_, ?_, rfl⟩
  · intro h
    simp [MySQLPool.insert, h]
  · intro hw hd
    simp [MySQLPool.update, hw, hd]

/-- Witness for C8 amended at concrete non object inputs. -/
theorem data_format_error_paths_witness :
    MySQLPool.insert "t" (.arr [.num 5]) = .cbErr "Bad data format." ∧
    MySQLPool.update "t" (.str "1") (.num 5) "" = .cbErr "Data must be an object." :=
  ⟨(data_format_error_paths "t" "" (.num 5) (.num 5) (.str "1") [] (.text "1")).2.1 rfl,
   (data_format_error_paths "t" "" (.num 5) (.num 5) (.str "1") [] (.text "1")).2.2.1 rfl rfl⟩

/-- Claim C9: an equality mapping compiles to one
`` `key`=escape(value) `` item per entry, in insertion order, joined by
`AND` with no outer parentheses; on the worked example the result is
`` `a`=1 AND `b`='x' ``. -/
theorem compile_equality_mapping (props : List (String × JsVal)) :
    parseCondition (.obj props) =
      (props.mapM (fun kv => (SqlStringEscape kv.2).map (fun s => "`" ++ kv.1 ++ "`=" ++ s))).map
        (fun items => .text (String.intercalate " AND " items)) ∧
    parseCondition (.obj [("a", .num 1), ("b", .str "x")]) = .ok (.text "`a`=1 AND `b`='x'") := by
  constructor
  · have comp : ∀ (e : Except JsErr (List String)),
        (e.map (String.intercalate " AND ")).map CondResult.text =
          e.map (fun items => CondResult.text (String.intercalate " AND " items)) := by
      intro e
      cases e <;> rfl
    rw [parseCondition, parseObjectCondition, comp]
  · rfl

/-- Claim C10: `selectOne` appends `LIMIT 1` to the trailing clause
exactly when the lowercased tail does not contain the token `limit `
(so a tail such as `ORDER BY id LIMIT 5` is left unchanged), delegates
to `select` with the rewritten tail, and on success hands the caller
only the head of the row list — `none` (`undefined`) when the result
set is empty — never the full row sequence. -/
theorem selectOne_limit_first_row {ρ : Type} (t tl : String) (f w : JsVal)
    (rs : List ρ) (x : ρ) :
    (listContainsSub "limit ".data (strLower tl).data = false →
      MySQLPool.selectOneTail tl = tl ++ " LIMIT 1") ∧
    (listContainsSub "limit ".data (strLower tl).data = true →
      MySQLPool.selectOneTail tl = tl) ∧
    MySQLPool.selectOneTail "" = " LIMIT 1" ∧
    MySQLPool.selectOneTail "ORDER BY id LIMIT 5" = "ORDER BY id LIMIT 5" ∧
    MySQLPool.selectOne t f w tl = MySQLPool.select t f w (MySQLPool.selectOneTail tl) ∧
    MySQLPool.selectOneResult ([] : List ρ) = none ∧
    MySQLPool.selectOneResult (x :: rs) = some x := by
  refine ⟨?_, ?_, rfl, rfl, rfl, rfl, rfl⟩
  · intro h
    simp [MySQLPool.selectOneTail, h]
  · intro h
    simp [MySQLPool.selectOneTail, h]

/-- Witness for C10: both tail branches and the first row projection at
concrete inputs. -/
theorem selectOne_limit_first_row_witness :
    MySQLPool.selectOneTail "ORDER BY id" = "ORDER BY id LIMIT 1" ∧
    MySQLPool.selectOneTail "ORDER BY id LIMIT 5" = "ORDER BY id LIMIT 5" ∧
    MySQLPool.selectOneResult [10, 20, 30] = some 10 :=
  ⟨(@selectOne_limit_first_row Nat "t" "ORDER BY id" (.str "*") (.str "1") [20, 30] 10).1 rfl,
   (@selectOne_limit_first_row Nat "t" "ORDER BY id LIMIT 5" (.str "*") (.str "1")
      [20, 30] 10).2.1 rfl,
   (@selectOne_limit_first_row Nat "t" "x" (.str "*") (.str "1") [20, 30] 10).2.2.2.2.2.2⟩

end LeiMySQL
